import Mathlib

/-!
Verification development for the discounted_stocks repository.

We shallowly embed the two modules the claims are about:
  * src/discounted_stocks/discounted_stocks_server.py
    (StandardDiscountCalculator.calculate_discount,
     FundamentalMarketDiscountEvaluator.evaluate_status,
     StockAnalyzer.analyze_stocks: row building, filtering, batching and
     CSV file building), and
  * src/stock_symbols/save_stocks.py
    (StockDataProcessor.process_data, FileDataSaver.save_data).

Python floats are modelled by rationals.  A provider "info" dict is modelled
by a Snapshot of optional rationals for the five fields the program reads;
a fetch result is an Option Snapshot, where none stands for the empty dict
returned on a fetch failure (Python `if not info: continue`).
Python truthiness on an optional number (None and 0 are falsy) is the
`truthy` predicate below, and Python's short-circuiting `a or b` on such
values is `pyOr`.
-/

/-- One stock entry produced by the symbol-store reader:
a dict with keys symbol and company_name. -/
structure Stock where
  symbol : String
  company_name : String
deriving DecidableEq

/-- The fields of the provider info dict that the program reads.  Each is
optional: `none` models an absent key (dict.get returning None). -/
structure Snapshot where
  currentPrice : Option ℚ
  regularMarketPrice : Option ℚ
  fiftyTwoWeekHigh : Option ℚ
  trailingPE : Option ℚ
  priceToBook : Option ℚ
deriving DecidableEq

/-- Python truthiness of an optional number: None and 0 are falsy,
every other number is truthy. -/
def truthy : Option ℚ → Bool
  | some x => decide (x ≠ 0)
  | none => false

/-- Python `a or b` on optional numbers: yields `a` when `a` is truthy,
otherwise `b`. -/
def pyOr (a b : Option ℚ) : Option ℚ :=
  if truthy a then a else b

/-- StandardDiscountCalculator.calculate_discount (discounted_stocks_server.py
lines 59-64):
  current_price = info.get('currentPrice') or info.get('regularMarketPrice')
  high_52 = info.get('fiftyTwoWeekHigh')
  if current_price and high_52:
      return ((high_52 - current_price) / high_52) * 100
  return 0.0
-/
def calculate_discount (info : Snapshot) : ℚ :=
  let current_price := pyOr info.currentPrice info.regularMarketPrice
  let high_52 := info.fiftyTwoWeekHigh
  if truthy current_price && truthy high_52 then
    ((high_52.getD 0 - current_price.getD 0) / high_52.getD 0) * 100
  else 0

/-- calculate_discount with an explicit division-by-zero check: returns
`none` exactly when the code would evaluate x / 0 for the division at
line 63 (which in Python would raise ZeroDivisionError). -/
def calculate_discount_checked (info : Snapshot) : Option ℚ :=
  let current_price := pyOr info.currentPrice info.regularMarketPrice
  let high_52 := info.fiftyTwoWeekHigh
  if truthy current_price && truthy high_52 then
    if high_52.getD 0 = 0 then none
    else some (((high_52.getD 0 - current_price.getD 0) / high_52.getD 0) * 100)
  else some 0

/-- FundamentalMarketDiscountEvaluator.evaluate_status
(discounted_stocks_server.py lines 68-73):
  pe_ratio = info.get('trailingPE')
  pb_ratio = info.get('priceToBook')
  is_fundamental_discount = (pe_ratio and pe_ratio < 20) and (pb_ratio and pb_ratio < 2)
  is_market_discount = discount_pct > 20
  return "DISCOUNTED" if (is_fundamental_discount or is_market_discount) else "FAIR/HIGH"
The truthiness of the Python and-chains is spelled out with `truthy`. -/
def evaluate_status (info : Snapshot) (discount_pct : ℚ) : String :=
  let pe := info.trailingPE
  let pb := info.priceToBook
  let is_fundamental_discount :=
    (truthy pe && decide (pe.getD 0 < 20)) && (truthy pb && decide (pb.getD 0 < 2))
  let is_market_discount := decide (discount_pct > 20)
  if is_fundamental_discount || is_market_discount then "DISCOUNTED" else "FAIR/HIGH"

/-- Round to the nearest integer, ties to even: the rounding used by
Python's round() and by %.2f formatting. -/
def roundHalfEven (q : ℚ) : ℤ :=
  let f := ⌊q⌋
  let r := q - f
  if r < 1 / 2 then f
  else if 1 / 2 < r then f + 1
  else if f % 2 = 0 then f else f + 1

/-- Python round(x, 2): x rounded to two decimal places, half to even. -/
def pyRound2 (q : ℚ) : ℚ :=
  (roundHalfEven (q * 100) : ℚ) / 100

/-- The two-character decimal rendering of k % 100, used for the fractional
part of a %.2f formatted number. -/
def twoDigitString (k : ℕ) : String :=
  String.mk [Nat.digitChar (k / 10 % 10), Nat.digitChar (k % 10)]

/-- Python f-string formatting with :.2f (decimal, exactly two digits after
the point, round half to even; number rendering of the integral part
abstracted by toString on the natural number). -/
def format2 (q : ℚ) : String :=
  let n := roundHalfEven (q * 100)
  (if n < 0 then "-" else "") ++ toString (n.natAbs / 100) ++ "." ++ twoDigitString (n.natAbs % 100)

/-- The PE / PB cell of a report row: either a rounded number or the
literal "N/A" placeholder. -/
inductive CellValue where
  | num : ℚ → CellValue
  | na : CellValue
deriving DecidableEq

/-- One report row, as appended by analyze_stocks (lines 105-113):
  results.append(dict with keys Symbol, CompanyName, Price, PE, PB,
  "Discount % (52w High)", Status). -/
structure ReportRow where
  Symbol : String
  CompanyName : String
  Price : Option ℚ
  PE : CellValue
  PB : CellValue
  DiscountPct : String
  Status : String
deriving DecidableEq

/-- The body of the per-stock loop of analyze_stocks for one non-empty
snapshot (lines 98-113): compute discount and status, re-read price, pe
and pb, and build the row dict.  `round(x, 2) if x else "N/A"` is Python
truthiness again: a present-but-zero ratio renders as "N/A". -/
def mkRow (symbol company_name : String) (info : Snapshot) : ReportRow :=
  let discount_pct := calculate_discount info
  let status := evaluate_status info discount_pct
  let current_price := pyOr info.currentPrice info.regularMarketPrice
  let pe := info.trailingPE
  let pb := info.priceToBook
  { Symbol := symbol
    CompanyName := company_name
    Price := current_price
    PE := if truthy pe then CellValue.num (pyRound2 (pe.getD 0)) else CellValue.na
    PB := if truthy pb then CellValue.num (pyRound2 (pb.getD 0)) else CellValue.na
    DiscountPct := format2 discount_pct ++ "%"
    Status := status }

/-- The row-building loop plus the only_discount filter of analyze_stocks
(lines 89-116).  `fetch` models self.fetcher.fetch_stock_info, with `none`
for the empty dict; `if not info: continue` is the `none` branch; the
append is modelled by the foldl accumulator; the filter is
  results = [item for item in results if item['Status'] == 'DISCOUNTED'].
-/
def analyze_stocks_rows (fetch : String → Option Snapshot) (only_discount : Bool)
    (stocks : List Stock) : List ReportRow :=
  let results := stocks.foldl (fun results stock =>
    match fetch stock.symbol with
    | none => results
    | some info => results ++ [mkRow stock.symbol stock.company_name info]) []
  if only_discount then results.filter (fun item => item.Status = "DISCOUNTED") else results

/-- The batched-message loop of analyze_stocks (lines 118-121):
  batch_limit = 10
  for i in range(0, len(results), batch_limit):
      send_message(json.dumps(results[i:i+batch_limit]))
The result is the list of row chunks passed to send_message, in order;
range(0, n, 10) makes (n + 9) / 10 iterations and results[i:i+10] is
(results.drop i).take 10. -/
def send_batches {α : Type} (results : List α) : List (List α) :=
  (List.range ((results.length + 9) / 10)).map fun k => (results.drop (10 * k)).take 10

/-- The CSV header written in file mode: fieldnames = results[0].keys(),
which for a non-empty result list is the fixed key order of the row dict. -/
def csv_fieldnames : List String :=
  ["Symbol", "CompanyName", "Price", "PE", "PB", "Discount % (52w High)", "Status"]

/-- The Price cell as csv.DictWriter renders it: None becomes the empty
string; number rendering abstracted by toString on the rational. -/
def priceCell : Option ℚ → String
  | none => ""
  | some q => toString q

/-- A PE / PB cell as written to the CSV. -/
def cellStr : CellValue → String
  | CellValue.num q => toString q
  | CellValue.na => "N/A"

/-- One CSV data line of the report, as the list of its cells in
fieldname order. -/
def rowCells (r : ReportRow) : List String :=
  [r.Symbol, r.CompanyName, priceCell r.Price, cellStr r.PE, cellStr r.PB,
    r.DiscountPct, r.Status]

/-- The file-mode CSV building of analyze_stocks (lines 123-131), as the
grid of cells (header line then one line per row):
  writer = csv.DictWriter(text_buffer, fieldnames=results[0].keys())
  writer.writeheader()
  writer.writerows(results)
`results[0]` on an empty list raises IndexError, so the empty case
produces no CSV at all: it is the `none` branch. -/
def build_csv (results : List ReportRow) : Option (List (List String)) :=
  match results with
  | [] => none
  | _ :: _ => some (csv_fieldnames :: results.map rowCells)

/-- One row of the ingestion job's CSV input
(save_stocks.py: keys Symbol, Company Name, Industry, ISIN Code). -/
structure CsvRow where
  Symbol : String
  Company_Name : String
  Industry : String
  ISIN_Code : String
deriving DecidableEq

/-- One record of the flat snapshot file written by FileDataSaver
(keys symbol, company_name, industry, isin). -/
structure SavedRow where
  symbol : String
  company_name : String
  industry : String
  isin : String
deriving DecidableEq

/-- The field renaming FileDataSaver.save_data applies to each row
(save_stocks.py lines 77-85). -/
def toSavedRow (r : CsvRow) : SavedRow :=
  { symbol := r.Symbol
    company_name := r.Company_Name
    industry := r.Industry
    isin := r.ISIN_Code }

/-- Insertion of key := value into a Python dict modelled as an ordered
association list: an existing key keeps its position and gets the new
value, a new key is appended. -/
def dictUpsert (acc : List (CsvRow × CsvRow)) (k v : CsvRow) : List (CsvRow × CsvRow) :=
  if acc.any (fun p => p.1 = k) then
    acc.map (fun p => if p.1 = k then (p.1, v) else p)
  else acc ++ [(k, v)]

/-- StockDataProcessor.process_data (save_stocks.py lines 45-50):
  return list(dict comprehension of tuple(sorted(d.items())) to d for d in data, then .values())
The key tuple(sorted(d.items())) is an injective image of the whole row
(all rows share the same four keys), so the row itself serves as the
dict key. -/
def process_data (data : List CsvRow) : List CsvRow :=
  (data.foldl (fun acc d => dictUpsert acc d d) []).map Prod.snd

/-- FileDataSaver.save_data (save_stocks.py lines 76-92), as the sequence
of records written to the flat snapshot file (after the fixed header). -/
def save_data (data : List CsvRow) : List SavedRow :=
  data.map toSavedRow

/-- Deduplication keeping the first occurrence of each row, stated from
the claim's words for comparison with process_data. -/
def firstOccurrenceDedup (data : List CsvRow) : List CsvRow :=
  data.foldl (fun acc d => if d ∈ acc then acc else acc ++ [d]) []

/-- Recursive form of the batching loop: first 10 rows, then the batches
of the rest.  Used to reason about send_batches by induction. -/
def chunkRec {α : Type} : List α → List (List α)
  | [] => []
  | x :: xs => ((x :: xs).take 10) :: chunkRec ((x :: xs).drop 10)
termination_by l => l.length
decreasing_by simp; omega
lemma getD_ne_zero_of_truthy (a : Option ℚ) (h : truthy a = true) : a.getD 0 ≠ 0 := by
  cases a with
  | none => simp [truthy] at h
  | some x => simpa [truthy] using h

lemma send_batches_nil {α : Type} : send_batches ([] : List α) = [] := by
  simp [send_batches]

lemma send_batches_cons {α : Type} (l : List α) (hne : l ≠ []) :
    send_batches l = l.take 10 :: send_batches (l.drop 10) := by
  have hlen : 1 ≤ l.length := by
    cases l with
    | nil => simp at hne
    | cons a as => simp
  have harith : (l.length + 9) / 10 = ((l.length - 10) + 9) / 10 + 1 := by omega
  have hdlen : (l.drop 10).length = l.length - 10 := List.length_drop 10 l
  simp only [send_batches, hdlen, harith, List.range_succ_eq_map, List.map_cons,
    List.map_map]
  congr 1
  apply List.map_congr_left
  intro k _
  simp only [Function.comp_apply, List.drop_drop]
  congr 2
  omega

lemma send_batches_eq_chunkRec_aux {α : Type} :
    ∀ (n : ℕ) (l : List α), l.length ≤ n → send_batches l = chunkRec l := by
  intro n
  induction n with
  | zero =>
    intro l hl
    have hnil : l = [] := List.eq_nil_of_length_eq_zero (Nat.le_zero.mp hl)
    subst hnil
    rw [send_batches_nil, chunkRec]
  | succ n ih =>
    intro l hl
    cases l with
    | nil => rw [send_batches_nil, chunkRec]
    | cons x xs =>
      rw [send_batches_cons _ (by simp), chunkRec]
      congr 1
      apply ih
      rw [List.length_drop]
      simp only [List.length_cons] at hl ⊢
      omega

lemma send_batches_eq_chunkRec {α : Type} (l : List α) : send_batches l = chunkRec l :=
  send_batches_eq_chunkRec_aux l.length l le_rfl

lemma chunkRec_props {α : Type} :
    ∀ (n : ℕ) (l : List α), l.length ≤ n →
      (chunkRec l).flatten = l ∧ (∀ b ∈ chunkRec l, b.length ≤ 10) ∧
      (∀ b ∈ (chunkRec l).dropLast, b.length = 10) := by
  intro n
  induction n with
  | zero =>
    intro l hl
    have hnil : l = [] := List.eq_nil_of_length_eq_zero (Nat.le_zero.mp hl)
    subst hnil
    rw [chunkRec]
    refine ⟨rfl, ?_, ?_⟩ <;> intro b hb <;> simp at hb
  | succ n ih =>
    intro l hl
    cases l with
    | nil =>
      rw [chunkRec]
      refine ⟨rfl, ?_, ?_⟩ <;> intro b hb <;> simp at hb
    | cons x xs =>
      have hdrop : ((x :: xs).drop 10).length ≤ n := by
        rw [List.length_drop]
        simp only [List.length_cons] at hl ⊢
        omega
      obtain ⟨ihj, ihb, ihd⟩ := ih _ hdrop
      rw [chunkRec]
      refine ⟨?_, ?_, ?_⟩
      · rw [List.flatten_cons, ihj, List.take_append_drop]
      · intro b hb
        rcases List.mem_cons.mp hb with rfl | hb
        · rw [List.length_take]
          exact min_le_left _ _
        · exact ihb b hb
      · intro b hb
        cases hrest : chunkRec ((x :: xs).drop 10) with
        | nil =>
          rw [hrest, List.dropLast_single] at hb
          simp at hb
        | cons c cs =>
          rw [hrest, List.dropLast_cons_of_ne_nil (List.cons_ne_nil c cs)] at hb
          rcases List.mem_cons.mp hb with rfl | hb
          · have hlong : 10 < (x :: xs).length := by
              by_contra hcon
              have hd : (x :: xs).drop 10 = [] := List.drop_eq_nil_of_le (by omega)
              rw [hd] at hrest
              rw [chunkRec] at hrest
              exact List.cons_ne_nil c cs hrest.symm
            rw [List.length_take]
            omega
          · exact ihd b (by rw [hrest]; exact hb)

lemma mkRow_Symbol (a b : String) (i : Snapshot) : (mkRow a b i).Symbol = a := rfl

lemma analyze_loop_eq (fetch : String → Option Snapshot) :
    ∀ (stocks : List Stock) (acc : List ReportRow),
      stocks.foldl (fun results stock =>
        match fetch stock.symbol with
        | none => results
        | some info => results ++ [mkRow stock.symbol stock.company_name info]) acc
      = acc ++ stocks.filterMap
          (fun s => (fetch s.symbol).map (fun info => mkRow s.symbol s.company_name info)) := by
  intro stocks
  induction stocks with
  | nil => intro acc; simp
  | cons s rest ih =>
    intro acc
    cases h : fetch s.symbol with
    | none => simp [h, ih]
    | some info => simp [h, ih]

lemma analyze_false_eq (fetch : String → Option Snapshot) (stocks : List Stock) :
    analyze_stocks_rows fetch false stocks
      = stocks.filterMap
          (fun s => (fetch s.symbol).map (fun info => mkRow s.symbol s.company_name info)) := by
  simp only [analyze_stocks_rows, Bool.false_eq_true, if_false]
  exact analyze_loop_eq fetch stocks []

lemma analyze_true_eq (fetch : String → Option Snapshot) (stocks : List Stock) :
    analyze_stocks_rows fetch true stocks
      = (analyze_stocks_rows fetch false stocks).filter
          (fun item => item.Status = "DISCOUNTED") := by
  simp only [analyze_stocks_rows, if_true, Bool.false_eq_true, if_false]

lemma filterMap_symbols (fetch : String → Option Snapshot) (stocks : List Stock) :
    (stocks.filterMap
        (fun s => (fetch s.symbol).map (fun info => mkRow s.symbol s.company_name info))).map
      ReportRow.Symbol
      = (stocks.filter (fun s => (fetch s.symbol).isSome)).map Stock.symbol := by
  induction stocks with
  | nil => simp
  | cons s rest ih =>
    cases h : fetch s.symbol with
    | none => simp [h, ih]
    | some info => simp [h, ih, mkRow_Symbol]

lemma dictUpsert_diag (acc : List CsvRow) (d : CsvRow) :
    dictUpsert (acc.map (fun r => (r, r))) d d
      = (if d ∈ acc then acc else acc ++ [d]).map (fun r => (r, r)) := by
  by_cases hd : d ∈ acc
  · rw [if_pos hd]
    have hany : (acc.map (fun r => (r, r))).any (fun p => p.1 = d) = true := by
      rw [List.any_eq_true]
      exact ⟨(d, d), List.mem_map_of_mem _ hd, by simp⟩
    rw [dictUpsert, if_pos hany, List.map_map]
    apply List.map_congr_left
    intro r _
    by_cases hr : r = d
    · subst hr; simp
    · simp [hr]
  · rw [if_neg hd]
    have hany : (acc.map (fun r => (r, r))).any (fun p => p.1 = d) = false := by
      rw [List.any_eq_false]
      intro p hp
      obtain ⟨r, hr, rfl⟩ := List.mem_map.mp hp
      have hne : r ≠ d := fun heq => hd (heq ▸ hr)
      simpa using hne
    rw [dictUpsert, if_neg (by simp [hany]), List.map_append]
    rfl

lemma foldl_dictUpsert_diag (data : List CsvRow) :
    ∀ acc : List CsvRow,
      data.foldl (fun a d => dictUpsert a d d) (acc.map (fun r => (r, r)))
      = (data.foldl (fun a d => if d ∈ a then a else a ++ [d]) acc).map (fun r => (r, r)) := by
  induction data with
  | nil => intro acc; rfl
  | cons d rest ih =>
    intro acc
    simp only [List.foldl_cons]
    rw [dictUpsert_diag, ih]

lemma process_data_eq_firstOcc (data : List CsvRow) :
    process_data data = firstOccurrenceDedup data := by
  have h := foldl_dictUpsert_diag data []
  simp only [List.map_nil] at h
  rw [process_data, h, List.map_map]
  have hid : (Prod.snd ∘ fun r : CsvRow => (r, r)) = id := funext (fun r => rfl)
  rw [hid, List.map_id, firstOccurrenceDedup]

lemma firstOcc_aux_mem :
    ∀ (data acc : List CsvRow) (r : CsvRow),
      r ∈ data.foldl (fun a d => if d ∈ a then a else a ++ [d]) acc ↔ r ∈ acc ∨ r ∈ data := by
  intro data
  induction data with
  | nil => intro acc r; simp
  | cons d rest ih =>
    intro acc r
    simp only [List.foldl_cons]
    rw [ih]
    by_cases hd : d ∈ acc
    · rw [if_pos hd]
      constructor
      · rintro (h | h)
        · exact Or.inl h
        · exact Or.inr (List.mem_cons_of_mem d h)
      · rintro (h | h)
        · exact Or.inl h
        · rcases List.mem_cons.mp h with rfl | h
          · exact Or.inl hd
          · exact Or.inr h
    · rw [if_neg hd]
      simp only [List.mem_append, List.mem_singleton, List.mem_cons]
      tauto

lemma firstOcc_aux_nodup :
    ∀ (data acc : List CsvRow), acc.Nodup →
      (data.foldl (fun a d => if d ∈ a then a else a ++ [d]) acc).Nodup := by
  intro data
  induction data with
  | nil => intro acc h; exact h
  | cons d rest ih =>
    intro acc hacc
    simp only [List.foldl_cons]
    by_cases hd : d ∈ acc
    · rw [if_pos hd]; exact ih acc hacc
    · rw [if_neg hd]
      apply ih
      rw [List.nodup_append]
      refine ⟨hacc, List.nodup_singleton d, ?_⟩
      intro a ha hb
      rw [List.mem_singleton] at hb
      subst hb
      exact hd ha

lemma firstOcc_aux_fixed :
    ∀ (data acc : List CsvRow), data.Nodup → (∀ r ∈ data, r ∉ acc) →
      data.foldl (fun a d => if d ∈ a then a else a ++ [d]) acc = acc ++ data := by
  intro data
  induction data with
  | nil => intro acc _ _; simp
  | cons d rest ih =>
    intro acc hnd hdisj
    simp only [List.foldl_cons]
    rw [if_neg (hdisj d (List.mem_cons_self d rest))]
    rw [ih (acc ++ [d]) (List.Nodup.of_cons hnd)]
    · simp
    · intro r hr
      simp only [List.mem_append, List.mem_singleton]
      rintro (h | rfl)
      · exact hdisj r (List.mem_cons_of_mem d hr) h
      · exact (List.nodup_cons.mp hnd).1 hr

lemma firstOcc_nodup (data : List CsvRow) : (firstOccurrenceDedup data).Nodup :=
  firstOcc_aux_nodup data [] List.nodup_nil

lemma firstOcc_mem (data : List CsvRow) (r : CsvRow) :
    r ∈ firstOccurrenceDedup data ↔ r ∈ data := by
  rw [firstOccurrenceDedup, firstOcc_aux_mem]
  simp

lemma firstOcc_of_nodup (data : List CsvRow) (h : data.Nodup) :
    firstOccurrenceDedup data = data := by
  rw [firstOccurrenceDedup, firstOcc_aux_fixed data [] h (by simp)]
  simp

/-- Claim C1 (code_bug evaluation): in file mode with an empty row list the
code does not produce a header-only CSV; fieldnames are taken from
results[0].keys(), and on zero rows that subscript raises IndexError, so no
CSV is built at all (the none branch of build_csv). -/
theorem c1_empty_results_no_csv : build_csv ([] : List ReportRow) = none := rfl

/-- Supporting fact for claim C1: for any non-empty row list the CSV is the
header line followed by one line per row. -/
theorem c1_nonempty_results_csv (r : ReportRow) (rs : List ReportRow) :
    build_csv (r :: rs) = some (csv_fieldnames :: (r :: rs).map rowCells) := rfl

/-- Claim C2 counterexample: a snapshot whose current price is present and
equal to 0 and whose 52-week high is present (100).  The claim demands the
formula value ((100 - 0) / 100) * 100 = 100, but calculate_discount
returns 0, because Python or-chains and if-tests treat the present 0 as
falsy. -/
theorem c2_counterexample :
    (Snapshot.mk (some 0) none (some 100) none none).currentPrice = some 0 ∧
    (Snapshot.mk (some 0) none (some 100) none none).fiftyTwoWeekHigh = some 100 ∧
    calculate_discount (Snapshot.mk (some 0) none (some 100) none none) = 0 ∧
    ((100 : ℚ) - 0) / 100 * 100 = 100 := by
  refine ⟨rfl, rfl, ?_, by norm_num⟩
  simp [calculate_discount, pyOr, truthy]

/-- Claim C2 as amended: when the effective price (currentPrice if present
and nonzero, else regularMarketPrice) is present and nonzero and the
52-week high is present and nonzero, calculate_discount returns
((high - price) / high) * 100; when either operand is absent or zero
(falsy), it returns 0. -/
theorem c2_amended (info : Snapshot) :
    (∀ p h, pyOr info.currentPrice info.regularMarketPrice = some p → p ≠ 0 →
      info.fiftyTwoWeekHigh = some h → h ≠ 0 →
      calculate_discount info = ((h - p) / h) * 100) ∧
    ((truthy (pyOr info.currentPrice info.regularMarketPrice) = false ∨
      truthy info.fiftyTwoWeekHigh = false) →
      calculate_discount info = 0) := by
  constructor
  · intro p h hp hp0 hh hh0
    simp [calculate_discount, hp, hh, truthy, hp0, hh0]
  · intro hcase
    rcases hcase with h | h <;> simp [calculate_discount, h]

/-- Witness for claim C2: concrete snapshot with price 90 and high 100;
the amended theorem yields the formula value 10. -/
theorem c2_witness :
    calculate_discount (Snapshot.mk (some 90) none (some 100) none none)
      = (((100 : ℚ) - 90) / 100) * 100 := by
  exact (c2_amended (Snapshot.mk (some 90) none (some 100) none none)).1 90 100
    (by norm_num [pyOr, truthy]) (by norm_num) rfl (by norm_num)

/-- Claim C3 counterexample: trailing P/E present and equal to 0 (< 20) and
price-to-book present and equal to 1 (< 2), yet evaluate_status returns
FAIR/HIGH, because the present-but-zero P/E is falsy in the Python
and-chain. -/
theorem c3_counterexample :
    (Snapshot.mk none none none (some 0) (some 1)).trailingPE = some 0 ∧ (0 : ℚ) < 20 ∧
    (Snapshot.mk none none none (some 0) (some 1)).priceToBook = some 1 ∧ (1 : ℚ) < 2 ∧
    evaluate_status (Snapshot.mk none none none (some 0) (some 1)) 0 = "FAIR/HIGH" := by
  refine ⟨rfl, by norm_num, rfl, by norm_num, ?_⟩
  simp [evaluate_status, truthy]

/-- Claim C3 as amended: for every snapshot whose trailing P/E is present,
nonzero and < 20 and whose price-to-book is present, nonzero and < 2,
evaluate_status returns DISCOUNTED for every discount percent. -/
theorem c3_amended (info : Snapshot) (pe pb dp : ℚ)
    (hpe : info.trailingPE = some pe) (hpe0 : pe ≠ 0) (hpe20 : pe < 20)
    (hpb : info.priceToBook = some pb) (hpb0 : pb ≠ 0) (hpb2 : pb < 2) :
    evaluate_status info dp = "DISCOUNTED" := by
  simp [evaluate_status, hpe, hpb, truthy, hpe0, hpb0, hpe20, hpb2]

/-- Witness for claim C3: P/E 10 and P/B 1 give DISCOUNTED at percent 0. -/
theorem c3_witness :
    evaluate_status (Snapshot.mk none none none (some 10) (some 1)) 0 = "DISCOUNTED" :=
  c3_amended _ 10 1 0 rfl (by norm_num) (by norm_num) rfl (by norm_num) (by norm_num)

/-- Claim C4: for every snapshot, any percent > 20 yields DISCOUNTED
regardless of P/E and P/B; and for percent at most 20, if the P/E is present
and at least 20, or the P/B is present and at least 2, or either value is
missing, evaluate_status returns FAIR/HIGH. -/
theorem c4_percent_and_fallthrough (info : Snapshot) (dp : ℚ) :
    (dp > 20 → evaluate_status info dp = "DISCOUNTED") ∧
    (dp ≤ 20 →
      ((∃ pe, info.trailingPE = some pe ∧ 20 ≤ pe) ∨
       (∃ pb, info.priceToBook = some pb ∧ 2 ≤ pb) ∨
       info.trailingPE = none ∨ info.priceToBook = none) →
      evaluate_status info dp = "FAIR/HIGH") := by
  constructor
  · intro h
    simp [evaluate_status, h]
  · intro hle hcase
    have hdp : ¬ (dp > 20) := not_lt.mpr hle
    rcases hcase with ⟨pe, hpe, h20⟩ | ⟨pb, hpb, h2⟩ | h | h
    · simp [evaluate_status, hpe, not_lt.mpr h20, hdp]
    · simp [evaluate_status, hpb, not_lt.mpr h2, hdp]
    · simp [evaluate_status, h, truthy, hdp]
    · simp [evaluate_status, h, truthy, hdp]

/-- Witness for claim C4: percent 21 gives DISCOUNTED on an empty-field
snapshot; percent 0 with P/E 25 gives FAIR/HIGH. -/
theorem c4_witness :
    evaluate_status (Snapshot.mk none none none none none) 21 = "DISCOUNTED" ∧
    evaluate_status (Snapshot.mk none none none (some 25) (some 1)) 0 = "FAIR/HIGH" :=
  ⟨(c4_percent_and_fallthrough _ 21).1 (by norm_num),
   (c4_percent_and_fallthrough _ 0).2 (by norm_num) (Or.inl ⟨25, rfl, by norm_num⟩)⟩

/-- Claim C5 counterexample: with the discount filter on (the default), a
symbol whose fetch returns a non-empty snapshot that classifies FAIR/HIGH
produces no report row, so the report does not contain one row for every
symbol with a non-empty fetch. -/
theorem c5_counterexample :
    (fun _ : String => some (Snapshot.mk (some 100) none (some 100) none none)) "AAA" ≠ none ∧
    analyze_stocks_rows (fun _ => some (Snapshot.mk (some 100) none (some 100) none none)) true
      [Stock.mk "AAA" "A Co"] = [] := by
  constructor
  · simp
  · have hcd : calculate_discount (Snapshot.mk (some 100) none (some 100) none none) = 0 := by
      norm_num [calculate_discount, pyOr, truthy]
    have hes : evaluate_status (Snapshot.mk (some 100) none (some 100) none none) 0
        = "FAIR/HIGH" := by
      simp [evaluate_status, truthy]
    rw [analyze_true_eq, analyze_false_eq]
    simp [mkRow, hcd, hes]

/-- Claim C5 as amended: with the filter off, the report has exactly the
rows of the symbols whose fetch is non-empty, one each, in input order
(the filterMap equation and the symbol-projection equation); with the
filter on, the report is that row list restricted to status DISCOUNTED;
and on input [AAA, BBB] where AAA fetches empty and BBB fetches
price 90, high 100, P/E 10, P/B 1, the report is exactly one BBB row with
discount "10.00%" and status DISCOUNTED. -/
theorem c5_report_rows (fetch : String → Option Snapshot) (stocks : List Stock) :
    analyze_stocks_rows fetch false stocks
      = stocks.filterMap
          (fun s => (fetch s.symbol).map (fun info => mkRow s.symbol s.company_name info)) ∧
    (analyze_stocks_rows fetch false stocks).map ReportRow.Symbol
      = (stocks.filter (fun s => (fetch s.symbol).isSome)).map Stock.symbol ∧
    analyze_stocks_rows fetch true stocks
      = (analyze_stocks_rows fetch false stocks).filter
          (fun item => item.Status = "DISCOUNTED") ∧
    analyze_stocks_rows
        (fun s => if s = "BBB" then some (Snapshot.mk (some 90) none (some 100) (some 10) (some 1))
                  else none) true
        [Stock.mk "AAA" "AAA Co", Stock.mk "BBB" "BBB Co"]
      = [ReportRow.mk "BBB" "BBB Co" (some 90) (CellValue.num 10) (CellValue.num 1)
          "10.00%" "DISCOUNTED"] := by
  refine ⟨analyze_false_eq fetch stocks, ?_, analyze_true_eq fetch stocks, ?_⟩
  · rw [analyze_false_eq]
    exact filterMap_symbols fetch stocks
  · have hcd : calculate_discount (Snapshot.mk (some 90) none (some 100) (some 10) (some 1))
        = 10 := by
      norm_num [calculate_discount, pyOr, truthy]
    have hes : evaluate_status (Snapshot.mk (some 90) none (some 100) (some 10) (some 1)) 10
        = "DISCOUNTED" := by
      norm_num [evaluate_status, truthy]
    have hround : pyRound2 10 = 10 := by
      norm_num [pyRound2, roundHalfEven]
    have hround1 : pyRound2 1 = 1 := by
      norm_num [pyRound2, roundHalfEven]
    have hfmt : format2 10 = "10.00" := by
      have h : roundHalfEven (10 * 100) = 1000 := by norm_num [roundHalfEven]
      simp [format2, h, twoDigitString]
      rfl
    have hrow : mkRow "BBB" "BBB Co" (Snapshot.mk (some 90) none (some 100) (some 10) (some 1))
        = ReportRow.mk "BBB" "BBB Co" (some 90) (CellValue.num 10) (CellValue.num 1)
            "10.00%" "DISCOUNTED" := by
      simp only [mkRow, hcd, hes, hround, hround1, hfmt]
      norm_num [pyOr, truthy]
      exact ⟨hround, hround1, rfl⟩
    rw [analyze_true_eq, analyze_false_eq]
    simp only [List.filterMap_cons]
    norm_num
    rw [hrow]
    simp

/-- Claim C6: batched-message mode sends the rows as consecutive chunks in
original order (their concatenation is the row list), each chunk has at
most 10 rows, every chunk except possibly the last has exactly 10, and a
23-row list produces exactly 3 messages of sizes 10, 10, 3. -/
theorem c6_batched_messages {α : Type} (l : List α) (r : α) :
    (send_batches l).flatten = l ∧
    (∀ b ∈ send_batches l, b.length ≤ 10) ∧
    (∀ b ∈ (send_batches l).dropLast, b.length = 10) ∧
    (send_batches (List.replicate 23 r)).map List.length = [10, 10, 3] := by
  obtain ⟨h1, h2, h3⟩ := chunkRec_props l.length l le_rfl
  rw [send_batches_eq_chunkRec]
  refine ⟨h1, h2, h3, ?_⟩
  have h23 : send_batches (List.replicate 23 r)
      = List.replicate 10 r :: send_batches (List.replicate 13 r) := by
    rw [send_batches_cons _ (by simp), List.take_replicate, List.drop_replicate]
    norm_num
  have h13 : send_batches (List.replicate 13 r)
      = List.replicate 10 r :: send_batches (List.replicate 3 r) := by
    rw [send_batches_cons _ (by simp), List.take_replicate, List.drop_replicate]
    norm_num
  have hl3 : send_batches (List.replicate 3 r) = [List.replicate 3 r] := by
    rw [send_batches_cons _ (by simp), List.take_replicate, List.drop_replicate]
    norm_num [send_batches_nil]
  rw [h23, h13, hl3]
  simp

/-- Witness for claim C6: 23 concrete rows produce batch sizes 10, 10, 3. -/
theorem c6_witness :
    (send_batches (List.replicate 23 (0 : ℕ))).map List.length = [10, 10, 3] :=
  (c6_batched_messages (List.replicate 23 (0 : ℕ)) 0).2.2.2

/-- Claim C7 counterexample: a present trailing P/E equal to 0 renders as
the "N/A" placeholder, not as 0.00, because round-if-x-else is a
truthiness test. -/
theorem c7_counterexample :
    (Snapshot.mk none none none (some 0) (some 1)).trailingPE = some 0 ∧
    (mkRow "X" "Y" (Snapshot.mk none none none (some 0) (some 1))).PE = CellValue.na := by
  refine ⟨rfl, ?_⟩
  simp [mkRow, truthy]

/-- Claim C7 as amended: the P/E and P/B fields equal the snapshot value
rounded to 2 decimals when it is present and nonzero, and the literal
"N/A" when it is absent or zero; the discount field is the percent
formatted with exactly two decimal places followed by the percent sign. -/
theorem c7_row_formatting (sym name : String) (info : Snapshot) :
    (∀ pe, info.trailingPE = some pe → pe ≠ 0 →
      (mkRow sym name info).PE = CellValue.num (pyRound2 pe)) ∧
    ((info.trailingPE = none ∨ info.trailingPE = some 0) →
      (mkRow sym name info).PE = CellValue.na) ∧
    (∀ pb, info.priceToBook = some pb → pb ≠ 0 →
      (mkRow sym name info).PB = CellValue.num (pyRound2 pb)) ∧
    ((info.priceToBook = none ∨ info.priceToBook = some 0) →
      (mkRow sym name info).PB = CellValue.na) ∧
    (mkRow sym name info).DiscountPct = format2 (calculate_discount info) ++ "%" ∧
    ∃ intPart k, k < 100 ∧
      format2 (calculate_discount info) = intPart ++ "." ++ twoDigitString k ∧
      (twoDigitString k).length = 2 := by
  refine ⟨?_, ?_, ?_, ?_, rfl, ?_⟩
  · intro pe hpe hpe0
    simp [mkRow, hpe, truthy, hpe0]
  · intro h
    rcases h with h | h <;> simp [mkRow, h, truthy]
  · intro pb hpb hpb0
    simp [mkRow, hpb, truthy, hpb0]
  · intro h
    rcases h with h | h <;> simp [mkRow, h, truthy]
  · refine ⟨(if roundHalfEven (calculate_discount info * 100) < 0 then "-" else "")
      ++ toString ((roundHalfEven (calculate_discount info * 100)).natAbs / 100),
      (roundHalfEven (calculate_discount info * 100)).natAbs % 100,
      Nat.mod_lt _ (by norm_num), ?_, ?_⟩
    · simp [format2, String.append_assoc]
    · simp [twoDigitString, String.length]

/-- Witness for claim C7: concrete row with P/E 10 rounds to 10 and carries
the formatted discount string. -/
theorem c7_witness :
    (mkRow "X" "Y" (Snapshot.mk (some 90) none (some 100) (some 10) (some 1))).PE
      = CellValue.num (pyRound2 10) ∧
    (mkRow "X" "Y" (Snapshot.mk (some 90) none (some 100) (some 10) (some 1))).DiscountPct
      = format2 (calculate_discount (Snapshot.mk (some 90) none (some 100) (some 10) (some 1))) ++ "%" :=
  ⟨(c7_row_formatting "X" "Y" _).1 10 rfl (by norm_num),
   (c7_row_formatting "X" "Y" _).2.2.2.2.1⟩

/-- Claim C8: process_data deduplicates by full-row equality (its output is
duplicate-free and has exactly the input's rows, each distinct input row
exactly once), and the snapshot file receives exactly the deduplicated set,
one record per deduplicated row and nothing else. -/
theorem c8_ingestion_dedup (data : List CsvRow) :
    (process_data data).Nodup ∧
    (∀ r, r ∈ process_data data ↔ r ∈ data) ∧
    (∀ r ∈ data, (process_data data).count r = 1) ∧
    save_data (process_data data) = (process_data data).map toSavedRow ∧
    (save_data (process_data data)).Nodup := by
  have hnd : (process_data data).Nodup := by
    rw [process_data_eq_firstOcc]; exact firstOcc_nodup data
  have hmem : ∀ r, r ∈ process_data data ↔ r ∈ data := by
    intro r
    rw [process_data_eq_firstOcc]; exact firstOcc_mem data r
  refine ⟨hnd, hmem, ?_, rfl, ?_⟩
  · intro r hr
    exact List.count_eq_one_of_mem hnd ((hmem r).mpr hr)
  · rw [save_data]
    apply hnd.map
    intro a b hab
    cases a; cases b
    simpa [toSavedRow, SavedRow.mk.injEq, CsvRow.mk.injEq] using hab

/-- Witness for claim C8: a duplicated row across the concatenated input
appears exactly once in the processed output. -/
theorem c8_witness :
    (process_data
        [CsvRow.mk "A" "ACo" "Ind" "I1", CsvRow.mk "B" "BCo" "Ind" "I2",
         CsvRow.mk "A" "ACo" "Ind" "I1"]).count (CsvRow.mk "A" "ACo" "Ind" "I1") = 1 :=
  (c8_ingestion_dedup _).2.2.1 _ (List.mem_cons_self _ _)

/-- Claim C9: calculate_discount is total and never divides by zero: the
checked variant (which signals a zero divisor) always returns the same
value, and a zero 52-week high or a zero effective price operand yields 0,
because the division is guarded by the truthiness check on both operands. -/
theorem c9_no_division_by_zero (info : Snapshot) :
    calculate_discount_checked info = some (calculate_discount info) ∧
    (info.fiftyTwoWeekHigh = some 0 → calculate_discount info = 0) ∧
    (pyOr info.currentPrice info.regularMarketPrice = some 0 → calculate_discount info = 0) := by
  refine ⟨?_, ?_, ?_⟩
  · cases h : (truthy (pyOr info.currentPrice info.regularMarketPrice)
        && truthy info.fiftyTwoWeekHigh) with
    | false => simp [calculate_discount_checked, calculate_discount, h]
    | true =>
      have hh : truthy info.fiftyTwoWeekHigh = true := (Bool.and_eq_true _ _ |>.mp h).2
      have hne : info.fiftyTwoWeekHigh.getD 0 ≠ 0 := getD_ne_zero_of_truthy _ hh
      simp [calculate_discount_checked, calculate_discount, h, hne]
  · intro hh
    simp [calculate_discount, hh, truthy]
  · intro hp
    simp [calculate_discount, hp, truthy]

/-- Witness for claim C9: the all-zero snapshot returns 0 and the checked
variant agrees. -/
theorem c9_witness :
    calculate_discount (Snapshot.mk (some 0) (some 0) (some 0) none none) = 0 ∧
    calculate_discount_checked (Snapshot.mk (some 0) (some 0) (some 0) none none)
      = some (calculate_discount (Snapshot.mk (some 0) (some 0) (some 0) none none)) :=
  ⟨(c9_no_division_by_zero _).2.1 rfl, (c9_no_division_by_zero _).1⟩

/-- Claim C10: process_data output is duplicate-free, applying it to its
own output is the identity, and the output keeps each distinct row at the
position of its first occurrence (it equals firstOccurrenceDedup). -/
theorem c10_process_data_idempotent (data : List CsvRow) :
    (process_data data).Nodup ∧
    process_data (process_data data) = process_data data ∧
    process_data data = firstOccurrenceDedup data := by
  have hnd : (process_data data).Nodup := by
    rw [process_data_eq_firstOcc]; exact firstOcc_nodup data
  refine ⟨hnd, ?_, process_data_eq_firstOcc data⟩
  rw [process_data_eq_firstOcc (process_data data), firstOcc_of_nodup _ hnd]
